import Mathlib

/-!
# Verification of the `expr` expression-language runtime

A shallow embedding, in Lean 4, of the `expr` Go library: its lexer
(`lexer.go`), recursive-descent parser, tree-walking evaluator and symbol
environment (`environment.go`), together with theorems settling a list of
claims about that code.

Modelling conventions, used throughout:

* Go `interface{}` payloads of scalar values are modelled by `GoVal`.
  Go's `float32`/`float64` payloads are modelled by `Rat`: the claims under
  study only ever inspect the *shape* of float handling (which branch is
  taken, which canonical result is produced), never IEEE-754 arithmetic.
* Go pointer identity of heap-allocated `ScalarExpr` values is modelled by
  an `allocId : Nat` field: the four scalars allocated by
  `registerBuiltIns` receive the fixed ids 0–3, and scalars freshly
  allocated during evaluation receive `freshAllocId`, distinct from all
  builtin ids.  The programs in scope never compare two evaluation-time
  allocations against each other, only against environment entries, so a
  single fresh id is an adequate pointer model.
* Go functions returning `(value, error)` pairs are modelled with
  `Except String`; the partially-built value that Go returns alongside a
  non-nil error is dropped, since no caller in the library reads it.
* Nontermination (`Environment.Get` on an environment without a `"null"`
  entry loops forever; the evaluator can loop through environment-stored
  scoped calls) is modelled by an explicit fuel parameter or an error
  value, as noted at each definition.
-/

namespace GoExpr

/-- The dynamic payload of a Go `interface{}` holding one of the primitive
types the library manipulates.  `vnil` is the nil interface. -/
inductive GoVal where
  | vnil
  | vbool (b : Bool)
  | vint (i : Int)
  | vuint (n : Nat)
  | vint64 (i : Int)
  | vuint64 (n : Nat)
  | vfloat32 (q : Rat)
  | vfloat64 (q : Rat)
  | vstring (s : String)
deriving DecidableEq, Repr

/-- The fields of Go's `ScalarExpr` struct, plus `allocId`, which models the
pointer identity of the heap allocation (see the file header). -/
structure ScalarData where
  allocId : Nat
  literal : String
  value : GoVal
deriving DecidableEq, Repr

/-- Go's `SymbolExpr`: a name and an optional parent scope (itself a
`*SymbolExpr`). -/
inductive SymbolData where
  | mk (name : String) (scope : Option SymbolData)
deriving Repr

/-- The closed set of expression nodes of the library (`expressions.go`):
one constructor per Go struct implementing the `Expression` interface. -/
inductive Expr where
  | scalarE (s : ScalarData)
  | symbolE (sym : SymbolData)
  | condE (cond l r : Expr)
  | orE (l r : Expr)
  | andE (l r : Expr)
  | compareE (op : String) (l r : Expr)
  | concatE (l r : Expr)
  | listE (exprs : List Expr)
  | inE (l r : Expr)
  | likeE (l r : Expr)
  | funcCallE (f : Option Expr) (args : List Expr)
  | scopedFuncCallE (name : String) (scope : Expr) (args : List Expr)
  | nativeFunctionE (name : String)
  | scopedNativeFunctionE (name : String) (scope : Expr)
deriving Repr

/-- Structural equality on `SymbolData` (Go compares symbols only through
pointers or literals; this is used by `beqExpr`). -/
def beqSymbolData : SymbolData → SymbolData → Bool
  | .mk n1 s1, .mk n2 s2 =>
    n1 == n2 && (match s1, s2 with
      | none, none => true
      | some a, some b => beqSymbolData a b
      | _, _ => false)

mutual

/-- Equality of expression values, modelling Go's `==` on two `Expression`
interface values.  For scalars the `allocId` field makes this pointer
equality; composite nodes are compared structurally (adequate here: every
identity comparison in the claims involves a scalar). -/
def beqExpr : Expr → Expr → Bool
  | .scalarE a, .scalarE b => a == b
  | .symbolE a, .symbolE b => beqSymbolData a b
  | .condE c1 l1 r1, .condE c2 l2 r2 => beqExpr c1 c2 && beqExpr l1 l2 && beqExpr r1 r2
  | .orE l1 r1, .orE l2 r2 => beqExpr l1 l2 && beqExpr r1 r2
  | .andE l1 r1, .andE l2 r2 => beqExpr l1 l2 && beqExpr r1 r2
  | .compareE o1 l1 r1, .compareE o2 l2 r2 => o1 == o2 && beqExpr l1 l2 && beqExpr r1 r2
  | .concatE l1 r1, .concatE l2 r2 => beqExpr l1 l2 && beqExpr r1 r2
  | .listE xs, .listE ys => beqExprList xs ys
  | .inE l1 r1, .inE l2 r2 => beqExpr l1 l2 && beqExpr r1 r2
  | .likeE l1 r1, .likeE l2 r2 => beqExpr l1 l2 && beqExpr r1 r2
  | .funcCallE f1 a1, .funcCallE f2 a2 => beqExprOpt f1 f2 && beqExprList a1 a2
  | .scopedFuncCallE n1 s1 a1, .scopedFuncCallE n2 s2 a2 =>
    n1 == n2 && beqExpr s1 s2 && beqExprList a1 a2
  | .nativeFunctionE n1, .nativeFunctionE n2 => n1 == n2
  | .scopedNativeFunctionE n1 s1, .scopedNativeFunctionE n2 s2 => n1 == n2 && beqExpr s1 s2
  | _, _ => false

/-- Elementwise `beqExpr` on lists of expressions. -/
def beqExprList : List Expr → List Expr → Bool
  | [], [] => true
  | x :: xs, y :: ys => beqExpr x y && beqExprList xs ys
  | _, _ => false

/-- `beqExpr` lifted to `Option` (a `none` models a nil `Expression`). -/
def beqExprOpt : Option Expr → Option Expr → Bool
  | none, none => true
  | some a, some b => beqExpr a b
  | _, _ => false

end

/-- Go's `fmt.Sprintf("%v", x)` on the primitive payloads, as used by
`NewScalarExprV` and `ScalarExpr.String`.  Float formatting is
approximated by `Rat`'s `toString`; no claim inspects it. -/
def goFmtV : GoVal → String
  | .vnil => "<nil>"
  | .vbool b => if b then "true" else "false"
  | .vint i => toString i
  | .vuint n => toString n
  | .vint64 i => toString i
  | .vuint64 n => toString n
  | .vfloat32 q => toString q
  | .vfloat64 q => toString q
  | .vstring s => s

/-- `escape` from `expressions.go`: backslash-escape `\` and `"`. -/
def escapeGo (s : String) : String :=
  (s.replace "\\" "\\\\").replace "\"" "\\\""

/-- `NewScalarExpr(literal, value)` with an explicit allocation id. -/
def NewScalarExpr (allocId : Nat) (literal : String) (value : GoVal) : Expr :=
  .scalarE ⟨allocId, literal, value⟩

/-- `NewScalarExprV(value)`: derives the literal from the value (`%v`
formatting; strings are quoted and escaped; nil becomes `"null"`). -/
def NewScalarExprV (allocId : Nat) (value : GoVal) : Expr :=
  match value with
  | .vnil => .scalarE ⟨allocId, "null", .vnil⟩
  | .vstring s => .scalarE ⟨allocId, "\"" ++ escapeGo s ++ "\"", .vstring s⟩
  | v => .scalarE ⟨allocId, goFmtV v, v⟩

/-- Allocation ids of the four scalars created by `registerBuiltIns`. -/
def nullAllocId : Nat := 0
def trueAllocId : Nat := 1
def falseAllocId : Nat := 2
def emptyAllocId : Nat := 3
/-- The id given to every scalar allocated during evaluation: distinct from
all builtin ids (see the pointer-identity convention in the header). -/
def freshAllocId : Nat := 1000

/-- Go's `eValue`: a stored expression plus its read-only flag. -/
structure EValue where
  expr : Expr
  readOnly : Bool
deriving Repr

/-- Go's `Environment`: the `globalFuncs` map (modelled as an association
list with unique keys) and the `AutoregisterGlobals` flag.  The call-frame
stack (`exStack`) is omitted: it is written but never observed by any code
path a claim mentions. -/
structure Environment where
  globalFuncs : List (String × EValue)
  autoregisterGlobals : Bool
deriving Repr

/-- Go map lookup `e.globalFuncs[name]`. -/
def findVal (env : Environment) (name : String) : Option EValue :=
  (env.globalFuncs.find? (fun p => p.1 == name)).map (·.2)

/-- Go map store `e.globalFuncs[name] = val` (replace or append). -/
def storeVal (env : Environment) (name : String) (v : EValue) : Environment :=
  if env.globalFuncs.any (fun p => p.1 == name) then
    { env with globalFuncs :=
        env.globalFuncs.map (fun p => if p.1 == name then (name, v) else p) }
  else
    { env with globalFuncs := env.globalFuncs ++ [(name, v)] }

/-- The expression produced when `Environment.Get` is forced to fall back
past a missing `"null"` entry: in Go that call never returns (infinite
recursion `Get → Null → Get`), so this marker value is unreachable from
any environment that, like every environment in the claims, holds a
`"null"` entry. -/
def divergedGetExpr : Expr := .scalarE ⟨999999999, "<Get loops forever>", .vnil⟩

/-- `Environment.Get`, total model: a present name yields its stored
expression; an absent name yields the stored `"null"` expression (Go:
`return e.Null()`, one level of the recursion suffices since the second
lookup is literally `Get("null")`).  When auto-registration is enabled Go
additionally inserts a null entry as a side effect; the claims only use
environments with the flag off, so the insertion is not modelled. -/
def Environment.GetD (env : Environment) (name : String) : Expr :=
  match findVal env name with
  | some v => v.expr
  | none =>
    match findVal env "null" with
    | some v => v.expr
    | none => divergedGetExpr

/-- `Environment.Get` as used by the evaluator, with the diverging corner
made explicit as an error so that evaluation hypotheses (`… = .ok _`)
exclude it. -/
def Environment.GetE (env : Environment) (name : String) : Except String Expr :=
  match findVal env name with
  | some v => .ok v.expr
  | none =>
    match findVal env "null" with
    | some v => .ok v.expr
    | none => .error "nontermination: Get recurses through a missing null entry"

/-- `Environment.Null()` (`e.Get("null")`). -/
def Environment.NullD (env : Environment) : Expr := env.GetD "null"

/-- `Environment.True()` (`e.Get("true")`). -/
def Environment.TrueD (env : Environment) : Expr := env.GetD "true"

/-- `Environment.False()` (`e.Get("false")`). -/
def Environment.FalseD (env : Environment) : Expr := env.GetD "false"

/-- `Environment.Set`: refuse when the existing entry is read-only,
otherwise store the expression (keeping the existing flag). -/
def Environment.Set (env : Environment) (name : String) (e : Expr) :
    Environment × Option String :=
  match findVal env name with
  | some val =>
    if val.readOnly then (env, some ("symbol " ++ name ++ " cannot be modified"))
    else (storeVal env name { val with expr := e }, none)
  | none => (storeVal env name { expr := e, readOnly := false }, none)

/-- `Environment.Lock`.  Faithful to the Go code, including its defect: the
map read `val, ok = e.globalFuncs[name]` yields a *copy* of the entry, and
the final `val.readOnly = locked` mutates only that copy, so when the
entry exists nothing is written back, and when it is absent the entry is
inserted (with `expr = e.Null()`) *before* the flag assignment, so the
stored flag is `false` either way. -/
def Environment.Lock (env : Environment) (name : String) (_locked : Bool) :
    Environment :=
  match findVal env name with
  | some _ => env
  | none => storeVal env name { expr := env.NullD, readOnly := false }

/-- `Environment.Remove`. -/
def Environment.Remove (env : Environment) (name : String) : Environment :=
  { env with globalFuncs := env.globalFuncs.filter (fun p => !(p.1 == name)) }

/-- `registerBuiltIns`: `Set` the four builtin scalars and the `print`
native function, and `Lock` `null`/`false`/`true` (ineffectively, see
`Environment.Lock`). -/
def registerBuiltIns (env : Environment) : Environment :=
  let env := (env.Set "null" (NewScalarExprV nullAllocId .vnil)).1
  let env := (env.Set "true" (NewScalarExprV trueAllocId (.vbool true))).1
  let env := (env.Set "false" (NewScalarExprV falseAllocId (.vbool false))).1
  let env := (env.Set "empty" (NewScalarExpr emptyAllocId "empty" (.vstring ""))).1
  let env := env.Lock "null" true
  let env := env.Lock "false" true
  let env := env.Lock "true" true
  let env := (env.Set "print" (.nativeFunctionE "print")).1
  env

/-- `NewEnvironment()`: empty table, builtins registered. -/
def NewEnvironment : Environment :=
  registerBuiltIns { globalFuncs := [], autoregisterGlobals := false }

/-- Go's `%T` on each expression node (used by the `Value`/`String`
methods of the non-scalar nodes). -/
def typeStringOf : Expr → String
  | .scalarE _ => "*expr.ScalarExpr"
  | .symbolE _ => "*expr.SymbolExpr"
  | .condE _ _ _ => "*expr.CondExpr"
  | .orE _ _ => "*expr.OrExpr"
  | .andE _ _ => "*expr.AndExpr"
  | .compareE _ _ _ => "*expr.CompareExpr"
  | .concatE _ _ => "*expr.ConCatExpr"
  | .listE _ => "*expr.ListExpr"
  | .inE _ _ => "*expr.InExpr"
  | .likeE _ _ => "*expr.LikeExpr"
  | .funcCallE _ _ => "*expr.FuncCallExpr"
  | .scopedFuncCallE _ _ _ => "*expr.ScopedFuncCallExpr"
  | .nativeFunctionE _ => "*expr.NativeFunctionExpr"
  | .scopedNativeFunctionE _ _ => "*expr.ScopedNativeFunctionExpr"

/-- `SymbolExpr.Literal()`: scope literal, a dot, then the name. -/
def symbolLiteral : SymbolData → String
  | .mk name scope =>
    match scope with
    | some sc => symbolLiteral sc ++ "." ++ name
    | none => name

mutual

/-- The `Literal()` method of each node (`expressions.go`), including its
quirks: `ListExpr.Literal` emits no closing bracket and uses `\x7b`;
`LikeExpr.Literal` prints `&&` (a copy-paste in the source); a
`ScopedFuncCallExpr` whose scope is a plain symbol gets a `#ScopeFunc:`
marker. -/
def literalOf : Expr → String
  | .scalarE s => s.literal
  | .symbolE sym => symbolLiteral sym
  | .condE c l r => "(" ++ literalOf c ++ "?" ++ literalOf l ++ ":" ++ literalOf r ++ ")"
  | .orE l r => "(" ++ literalOf l ++ " || " ++ literalOf r ++ ")"
  | .andE l r => "(" ++ literalOf l ++ " && " ++ literalOf r ++ ")"
  | .compareE op l r => "(" ++ literalOf l ++ " " ++ op ++ " " ++ literalOf r ++ ")"
  | .concatE l r => "(" ++ literalOf l ++ literalOf r ++ ")"
  | .listE xs => literalOfListParts "\x7b" xs
  | .inE l r => "(" ++ literalOf l ++ " in " ++ literalOf r ++ ")"
  | .likeE l r => "(" ++ literalOf l ++ " && " ++ literalOf r ++ ")"
  | .funcCallE f _ =>
    "(#invoke-function:" ++ (match f with
      | some fe => literalOf fe
      | none => "<panic: Literal on nil Expression>") ++ "#)"
  | .scopedFuncCallE name scope _ =>
    match scope with
    | .symbolE sym => "#ScopeFunc:" ++ symbolLiteral sym ++ "." ++ name
    | sc => literalOf sc ++ "." ++ name
  | .nativeFunctionE name => "(#native-function:" ++ name ++ "#)"
  | .scopedNativeFunctionE name _ => "(#native-function:" ++ name ++ "#)"

/-- `ListExpr.Literal`'s loop: write the running prefix then each element's
literal, switching the prefix to `", "` after the first element. -/
def literalOfListParts (pre : String) : List Expr → String
  | [] => ""
  | x :: xs => pre ++ literalOf x ++ literalOfListParts ", " xs

end

/-- A Go `interface{}` value as returned by the `Value()` methods: either a
primitive payload or a reference to an expression (only `ListExpr.Value`
returns the expression itself). -/
inductive GoIface where
  | prim (v : GoVal)
  | ref (e : Expr)

/-- Go `==` on two `interface{}` values: equal dynamic type and equal
value.  A primitive never equals an expression reference. -/
def beqGoIface : GoIface → GoIface → Bool
  | .prim a, .prim b => a == b
  | .ref a, .ref b => beqExpr a b
  | _, _ => false

/-- The `Value()` method of each node: scalars return their payload, lists
return themselves, every other node returns the `[:%T:]` marker string. -/
def valueOf : Expr → GoIface
  | .scalarE s => .prim s.value
  | .listE xs => .ref (.listE xs)
  | e => .prim (.vstring ("[:" ++ typeStringOf e ++ ":]"))

/-- The `String()` method of each node: scalars print their payload with
`%v` (or `NULL` for a nil payload), every other node prints its `%T`. -/
def stringOf : Expr → String
  | .scalarE s => if s.value == .vnil then "NULL" else goFmtV s.value
  | e => typeStringOf e

/-- Go `fmt.Sprintf("%v", x)` on an `interface{}` as produced by
`Value()` (used by `InExpr`/`LikeExpr`).  A list reference prints as a
pointer; the exact text is irrelevant to every claim. -/
def goFmtIface : GoIface → String
  | .prim v => goFmtV v
  | .ref e => "&" ++ typeStringOf e

/-- The falsiness test that `CondExpr`, `OrExpr` and `AndExpr` all inline:

`c == nil || c == env.False() || c.Value() == nil || c.Value() == env.False()`

Note the last comparison is between a payload `interface{}` and the
`Expression` interface `env.False()`: for a primitive payload (in
particular the boolean `false`) the two can never be equal. -/
def isFalsy (env : Environment) (c : Option Expr) : Bool :=
  match c with
  | none => true
  | some e =>
    beqExpr e env.FalseD ||
    beqGoIface (valueOf e) (.prim .vnil) ||
    beqGoIface (valueOf e) (.ref env.FalseD)

/-- `compare` from the library (the scalar comparison helper): the
nil/Null guard, then a type switch on the left payload; each arm requires
the right payload to have the same dynamic type and dispatches on the
operator; every fall-through path ends in `(env.False(), nil)`. -/
def compare (env : Environment) (operand : String) (l r : ScalarData) :
    Expr × Option String :=
  if r.value == .vnil || beqGoIface (.prim r.value) (.ref env.NullD) ||
      l.value == .vnil || beqGoIface (.prim l.value) (.ref env.NullD) then
    (env.FalseD, none)
  else
    match l.value with
    | .vbool vl =>
      match r.value with
      | .vbool vr =>
        match operand with
        | "==" => (if vl == vr then env.TrueD else env.FalseD, none)
        | "!=" => (if vl != vr then env.TrueD else env.FalseD, none)
        | ">=" =>
          (if vl != vr then (if vl then env.TrueD else env.FalseD) else env.TrueD, none)
        | ">" =>
          (if vl != vr then (if vl then env.TrueD else env.FalseD) else env.FalseD, none)
        | "<=" =>
          (if vl != vr then (if vl then env.FalseD else env.TrueD) else env.TrueD, none)
        | "<" =>
          (if vl != vr then (if vl then env.FalseD else env.TrueD) else env.FalseD, none)
        | _ => (env.FalseD, some ("Operand not supported: " ++ operand))
      | _ => (env.FalseD, none)
    | .vint vl =>
      match r.value with
      | .vint vr =>
        match operand with
        | "==" => (if vl == vr then env.TrueD else env.FalseD, none)
        | "!=" => (if vl != vr then env.TrueD else env.FalseD, none)
        | ">=" => (if vl ≥ vr then env.TrueD else env.FalseD, none)
        | ">" => (if vl > vr then env.TrueD else env.FalseD, none)
        | "<=" => (if vl ≤ vr then env.TrueD else env.FalseD, none)
        | "<" => (if vl < vr then env.TrueD else env.FalseD, none)
        | _ => (env.FalseD, some ("Operand not supported: " ++ operand))
      | _ => (env.FalseD, none)
    | .vuint vl =>
      match r.value with
      | .vuint vr =>
        match operand with
        | "==" => (if vl == vr then env.TrueD else env.FalseD, none)
        | "!=" => (if vl != vr then env.TrueD else env.FalseD, none)
        | ">=" => (if vl ≥ vr then env.TrueD else env.FalseD, none)
        | ">" => (if vl > vr then env.TrueD else env.FalseD, none)
        | "<=" => (if vl ≤ vr then env.TrueD else env.FalseD, none)
        | "<" => (if vl < vr then env.TrueD else env.FalseD, none)
        | _ => (env.FalseD, some ("Operand not supported: " ++ operand))
      | _ => (env.FalseD, none)
    | .vint64 vl =>
      match r.value with
      | .vint64 vr =>
        match operand with
        | "==" => (if vl == vr then env.TrueD else env.FalseD, none)
        | "!=" => (if vl != vr then env.TrueD else env.FalseD, none)
        | ">=" => (if vl ≥ vr then env.TrueD else env.FalseD, none)
        | ">" => (if vl > vr then env.TrueD else env.FalseD, none)
        | "<=" => (if vl ≤ vr then env.TrueD else env.FalseD, none)
        | "<" => (if vl < vr then env.TrueD else env.FalseD, none)
        | _ => (env.FalseD, some ("Operand not supported: " ++ operand))
      | _ => (env.FalseD, none)
    | .vuint64 vl =>
      match r.value with
      | .vuint64 vr =>
        match operand with
        | "==" => (if vl == vr then env.TrueD else env.FalseD, none)
        | "!=" => (if vl != vr then env.TrueD else env.FalseD, none)
        | ">=" => (if vl ≥ vr then env.TrueD else env.FalseD, none)
        | ">" => (if vl > vr then env.TrueD else env.FalseD, none)
        | "<=" => (if vl ≤ vr then env.TrueD else env.FalseD, none)
        | "<" => (if vl < vr then env.TrueD else env.FalseD, none)
        | _ => (env.FalseD, some ("Operand not supported: " ++ operand))
      | _ => (env.FalseD, none)
    | .vfloat32 vl =>
      match r.value with
      | .vfloat32 vr =>
        match operand with
        | "==" => (if vl == vr then env.TrueD else env.FalseD, none)
        | "!=" => (if vl != vr then env.TrueD else env.FalseD, none)
        | ">=" => (if vl ≥ vr then env.TrueD else env.FalseD, none)
        | ">" => (if vl > vr then env.TrueD else env.FalseD, none)
        | "<=" => (if vl ≤ vr then env.TrueD else env.FalseD, none)
        | "<" => (if vl < vr then env.TrueD else env.FalseD, none)
        | _ => (env.FalseD, some ("Operand not supported: " ++ operand))
      | _ => (env.FalseD, none)
    | .vfloat64 vl =>
      match r.value with
      | .vfloat64 vr =>
        match operand with
        | "==" => (if vl == vr then env.TrueD else env.FalseD, none)
        | "!=" => (if vl != vr then env.TrueD else env.FalseD, none)
        | ">=" => (if vl ≥ vr then env.TrueD else env.FalseD, none)
        | ">" => (if vl > vr then env.TrueD else env.FalseD, none)
        | "<=" => (if vl ≤ vr then env.TrueD else env.FalseD, none)
        | "<" => (if vl < vr then env.TrueD else env.FalseD, none)
        | _ => (env.FalseD, some ("Operand not supported: " ++ operand))
      | _ => (env.FalseD, none)
    | v => (env.FalseD, some ("Scalar datatype not supported: " ++ goFmtV v))

mutual

/-- `MatchI` from `expressions.go` (case-insensitive glob match), with a
fuel parameter standing in for Go's unbounded recursion (the measure does
decrease, so enough fuel always exists). -/
def matchI : Nat → List Char → Nat → List Char → Nat → Bool
  | 0, _, _, _, _ => false
  | fuel + 1, txt, ti, pat, pi =>
    if ti < txt.length && pi < pat.length then
      let r := (pat.getD pi ' ').toLower
      let pi' := pi + 1
      if r == '*' then
        if pi' == pat.length then true
        else matchStarLoop fuel txt ti pat pi'
      else if r == '?' then
        matchI fuel txt (ti + 1) pat pi'
      else if r != (txt.getD ti ' ').toLower then false
      else matchI fuel txt (ti + 1) pat pi'
    else
      ti == txt.length &&
        (pi == pat.length || (pi == pat.length - 1 && pat.getD pi ' ' == '*'))

/-- The `*` backtracking loop of `MatchI`: advance `ti` until a suffix
match succeeds, then report whether the text was exhausted. -/
def matchStarLoop : Nat → List Char → Nat → List Char → Nat → Bool
  | 0, _, _, _, _ => false
  | fuel + 1, txt, ti, pat, pi =>
    if ti < txt.length then
      if matchI fuel txt ti pat pi then true
      else matchStarLoop fuel txt (ti + 1) pat pi
    else false

end

/-- `Match(txt, pattern)`. -/
def MatchGo (txt pattern : String) : Bool :=
  matchI ((txt.length + 1) * (pattern.length + 1) + 1) txt.data 0 pattern.data 0

/-- The native callbacks registered in the host program, keyed by the name
stored in the `NativeFunctionExpr`/`ScopedNativeFunctionExpr` node (Go
stores the function pointer itself; the claims never register two
functions under one name).  A callback receives the argument slice —
whose elements may be nil `Expression`s, hence `Option Expr` — and
returns `(Expression, error)`. -/
def CallbackTable : Type := String → List (Option Expr) → Except String (Option Expr)

/-- Does the node implement Go's `Function` interface (an `Invoke`
method)?  Only the two native-function nodes do. -/
def isFunctionNode : Expr → Bool
  | .nativeFunctionE _ => true
  | .scopedNativeFunctionE _ _ => true
  | _ => false

/-- `Value()` on a possibly-nil `Expression` (nil yields the nil
interface). -/
def valueOfOpt : Option Expr → GoIface
  | some e => valueOf e
  | none => .prim .vnil

/-- The name under which a native-function node's callback is looked up in
the `CallbackTable`. -/
def nativeNameOf : Expr → String
  | .nativeFunctionE name => name
  | .scopedNativeFunctionE name _ => name
  | _ => ""

/-- Strip the `Option` from a list of evaluated elements, failing if any
is a nil `Expression`. -/
def liftNonNil : List (Option Expr) → Option (List Expr)
  | [] => some []
  | some x :: xs => (liftNonNil xs).map (x :: ·)
  | none :: _ => none

mutual

/-- The `Evaluate` methods of `expressions.go`, one match arm per node,
each arm a literal transcription of the corresponding Go method.  `fuel`
models Go's unbounded recursion (needed because `ScopedFuncCallExpr`
evaluates an environment-stored expression, which can loop); every
recursive call runs on `fuel`.  Results are `Option Expr` because a
native callback may return a nil `Expression`. -/
def evalE (cb : CallbackTable) : Nat → Environment → Expr → Except String (Option Expr)
  | 0, _, _ => .error "out of fuel (models nontermination)"
  | fuel + 1, env, e =>
    match e with
    | .scalarE s => .ok (some (.scalarE s))
    | .symbolE sym =>
      match env.GetE (symbolLiteral sym) with
      | .error msg => .error msg
      | .ok ex => .ok (some ex)
    | .condE c l r =>
      match evalE cb fuel env c with
      | .error msg => .error msg
      | .ok cv =>
        if isFalsy env cv then evalE cb fuel env l
        else evalE cb fuel env r
    | .orE l r =>
      match evalE cb fuel env l with
      | .error msg => .error msg
      | .ok cv =>
        if !isFalsy env cv then .ok (some env.TrueD)
        else
          match evalE cb fuel env r with
          | .error msg => .error msg
          | .ok cv2 =>
            if !isFalsy env cv2 then .ok (some env.TrueD)
            else .ok (some env.FalseD)
    | .andE l r =>
      match evalE cb fuel env l with
      | .error msg => .error msg
      | .ok cv =>
        if isFalsy env cv then .ok (some env.FalseD)
        else
          match evalE cb fuel env r with
          | .error msg => .error msg
          | .ok cv2 =>
            if isFalsy env cv2 then .ok (some env.FalseD)
            else .ok (some env.TrueD)
    | .compareE op le re =>
      match evalE cb fuel env le with
      | .error msg => .error msg
      | .ok lv =>
        match evalE cb fuel env re with
        | .error msg => .error msg
        | .ok rv =>
          match lv, rv with
          | some (.scalarE ls), some (.scalarE rs) =>
            match compare env op ls rs with
            | (ex, none) => .ok (some ex)
            | (_, some msg) => .error msg
          | _, _ => .error "equality-operator is only supported on Scalar values"
    | .concatE le re =>
      match evalE cb fuel env le with
      | .error msg => .error msg
      | .ok lv =>
        match evalE cb fuel env re with
        | .error msg => .error msg
        | .ok rv =>
          if lv.isNone || beqGoIface (valueOfOpt lv) (.prim .vnil) then
            if rv.isNone || beqGoIface (valueOfOpt rv) (.prim .vnil) then
              .ok (some (NewScalarExpr freshAllocId "" (.vstring "")))
            else
              match rv with
              | some rex => .ok (some (NewScalarExpr freshAllocId "" (.vstring (stringOf rex))))
              | none => .error "panic: String() called on a nil Expression"
          else if rv.isNone || beqGoIface (valueOfOpt rv) (.prim .vnil) then
            -- Faithful to the source: this branch returns r.String(), not
            -- l.String() (ConCatExpr.Evaluate, the nil-right case).
            match rv with
            | some rex => .ok (some (NewScalarExpr freshAllocId "" (.vstring (stringOf rex))))
            | none => .error "panic: String() called on a nil Expression"
          else
            match lv, rv with
            | some lex, some rex =>
              .ok (some (NewScalarExpr freshAllocId "" (.vstring (stringOf lex ++ stringOf rex))))
            | _, _ => .error "panic: String() called on a nil Expression"
    | .listE xs =>
      match evalList cb fuel env xs with
      | .error msg => .error msg
      | .ok ys =>
        -- Go appends each evaluated element (possibly a nil Expression)
        -- to a new ListExpr; a nil element would only arise from a native
        -- callback returning nil and would make the new list unusable, so
        -- it is modelled as an abnormal outcome.
        match liftNonNil ys with
        | some zs => .ok (some (.listE zs))
        | none => .error "model: nil Expression appended to an evaluated list"
    | .inE le re =>
      match evalE cb fuel env le with
      | .error msg => .error msg
      | .ok val =>
        match evalE cb fuel env re with
        | .error msg => .error msg
        | .ok listv =>
          match listv with
          | some (.listE xs) =>
            match val with
            | none => .error "panic: Value() called on a nil Expression"
            | some valE =>
              let str := goFmtIface (valueOf valE)
              if xs.any (fun ex => str == goFmtIface (valueOf ex)) then
                .ok (some env.TrueD)
              else .ok (some env.FalseD)
          | _ => .error ("not a list for matching values: " ++ literalOf (.inE le re))
    | .likeE le re =>
      match evalE cb fuel env le with
      | .error msg => .error msg
      | .ok lv =>
        match evalE cb fuel env re with
        | .error msg => .error msg
        | .ok rv =>
          match lv, rv with
          | some lex, some rex =>
            if MatchGo (goFmtIface (valueOf lex)) (goFmtIface (valueOf rex)) then
              .ok (some env.TrueD)
            else .ok (some env.FalseD)
          | _, _ => .error "panic: Value() called on a nil Expression"
    | .funcCallE fopt argEs =>
      match fopt with
      | none => .error "panic: Evaluate called on a nil function Expression"
      | some fe =>
        match evalE cb fuel env fe with
        | .error msg => .error msg
        | .ok fv =>
          match fv with
          | some fnode =>
            if isFunctionNode fnode then
              -- args := make([]Expression, len(e.GetArgs())) — a slice of
              -- n nil Expressions — followed by append of each evaluated
              -- argument.
              match evalList cb fuel env argEs with
              | .error msg => .error msg
              | .ok evald =>
                cb (nativeNameOf fnode) (List.replicate argEs.length none ++ evald)
            else .error ("not a function: " ++ literalOf fe)
          | none => .error ("not a function: " ++ literalOf fe)
    | .scopedFuncCallE name scope argEs =>
      match env.GetE (literalOf (.scopedFuncCallE name scope argEs)) with
      | .error msg => .error msg
      | .ok stored =>
        match evalE cb fuel env stored with
        | .error msg => .error msg
        | .ok fv =>
          match fv with
          | some (.scopedNativeFunctionE fname fscope) =>
            match evalE cb fuel env scope with
            | .error msg => .error msg
            | .ok evscope =>
              match evalList cb fuel env argEs with
              | .error msg => .error msg
              | .ok evald =>
                -- make-with-length then append: n leading nils, then the
                -- evaluated scope, then the evaluated arguments.
                cb (nativeNameOf (.scopedNativeFunctionE fname fscope))
                  (List.replicate argEs.length none ++ [evscope] ++ evald)
          | some other => .error ("not a function: " ++ literalOf other)
          | none => .error "panic: Literal() called on a nil Expression"
    | .nativeFunctionE name => .ok (some (.nativeFunctionE name))
    | .scopedNativeFunctionE name scope => .ok (some (.scopedNativeFunctionE name scope))

/-- Left-to-right evaluation of an argument/element list, stopping at the
first error (the evaluation loops of `FuncCallExpr.Evaluate`,
`ScopedFuncCallExpr.Evaluate` and `ListExpr.Evaluate`). -/
def evalList (cb : CallbackTable) : Nat → Environment → List Expr →
    Except String (List (Option Expr))
  | _, _, [] => .ok []
  | 0, _, _ :: _ => .error "out of fuel (models nontermination)"
  | fuel + 1, env, x :: xs =>
    match evalE cb fuel env x with
    | .error msg => .error msg
    | .ok v =>
      match evalList cb fuel env xs with
      | .error msg => .error msg
      | .ok vs => .ok (v :: vs)

end

/-!
## Lexer (`lexer.go`)

The Go lexer runs as a goroutine feeding a channel; the parser pulls
tokens one at a time.  Pulled apart from the scheduling, that protocol is
exactly a finite token list produced in emission order, which is how it is
modelled here (`runLex` plays the `run` loop; fuel bounds the number of
emitted tokens — the loop consumes input on every step that continues, so
`input.length + 2` is always enough).  Byte positions are modelled as rune
positions (`pos`, `start`, `width` count `Char`s, not UTF-8 bytes); all
inputs in the claims are ASCII, where the two coincide.
-/

/-- Go's `TokenType` constants, in declaration order (`ErrorTok` is the
zero value). -/
inductive TokenType where
  | ErrorTok
  | EoFTok
  | WhitespaceTok
  | IdentTok
  | StringTok
  | NumberTok
  | OperatorTok
deriving DecidableEq, Repr

/-- The integer value of a `TokenType` (Go prints it with `%v`). -/
def tokenTypeNum : TokenType → Nat
  | .ErrorTok => 0
  | .EoFTok => 1
  | .WhitespaceTok => 2
  | .IdentTok => 3
  | .StringTok => 4
  | .NumberTok => 5
  | .OperatorTok => 6

/-- Go's `Token` struct.  The Go field `Type` is spelled `ttype` (`Type`
is not a legal Lean name); `value` is the decoded payload
(`Value interface{}`), `none` being the nil interface of the zero
token. -/
structure Token where
  ttype : TokenType
  literal : String
  value : Option GoVal
  line : Nat
  start : Nat
deriving Repr

/-- The payload stored in a token, viewed as a `GoVal` (nil interface for
the zero token). -/
def tokValOf : Option GoVal → GoVal
  | some v => v
  | none => .vnil

/-- The character classes of `lexer.go` (`chWHITE` ends with the
non-breaking space U+00A0). -/
def chWHITE : String := " \t\r\n "
def chDIGIT : String := "0123456789"
def chBinary : String := "01"
def chOCTAL : String := "01234567"
def chHEXDIGIT : String := chDIGIT ++ "abcdefABCDEF"
def chALPHA : String := "abcdefghijklmnopqrstuvwxyzABCDEFGHIJKLMNOPQRSTUVWXYZ"
def chIDENTSTART : String := chALPHA ++ "_"
def chIDENTBODY : String := chIDENTSTART ++ chDIGIT

/-- `strings.ContainsRune` (spelled out on the character list so that the
kernel can evaluate it). -/
def containsRune (chars : String) (c : Char) : Bool := chars.data.contains c

/-- The mutable fields of Go's `lexer` struct that the scanning functions
touch. -/
structure LexState where
  input : List Char
  start : Nat
  pos : Nat
  width : Nat
  line : Nat
  includeWS : Bool
deriving Repr

/-- `lexer.next`: pull one rune (or eof, modelled as `none`). -/
def lexNext (l : LexState) : Option Char × LexState :=
  if l.pos ≥ l.input.length then (none, { l with width := 0 })
  else
    let r := l.input.getD l.pos ' '
    let l' := { l with width := 1, pos := l.pos + 1 }
    (some r, if r == '\n' then { l' with line := l'.line + 1 } else l')

/-- `lexer.backup`: step back one rune (only valid right after `next`). -/
def lexBackup (l : LexState) : LexState :=
  let l' := { l with pos := l.pos - l.width }
  if l.width == 1 && l'.input.getD l'.pos ' ' == '\n' then { l' with line := l'.line - 1 }
  else l'

/-- `lexer.Current`: the slice `input[start:pos]`. -/
def lexCurrent (l : LexState) : String :=
  String.mk ((l.input.drop l.start).take (l.pos - l.start))

/-- `lexer.emit`'s state effect: `start = pos` (token delivery is handled
by the caller). -/
def lexEmit (l : LexState) : LexState := { l with start := l.pos }

/-- `lexer.accept`: consume the next rune if it belongs to `valid`. -/
def lexAccept (valid : String) (l : LexState) : Bool × LexState :=
  let (r, l') := lexNext l
  match r with
  | some c => if containsRune valid c then (true, l') else (false, lexBackup l')
  | none => (false, lexBackup l')

/-- `lexer.eat`: consume runes while they belong to `chars` (the Go loop,
with fuel — call sites pass at least the remaining input length). -/
def lexEat : Nat → String → LexState → LexState
  | 0, _, l => l
  | fuel + 1, chars, l =>
    let (r, l') := lexNext l
    match r with
    | some c => if containsRune chars c then lexEat fuel chars l' else lexBackup l'
    | none => lexBackup l'

/-- The numeric value of a digit rune, as `strconv` reads them. -/
def digitVal (c : Char) : Option Nat :=
  if '0' ≤ c ∧ c ≤ '9' then some (c.toNat - '0'.toNat)
  else if 'a' ≤ c ∧ c ≤ 'z' then some (c.toNat - 'a'.toNat + 10)
  else if 'A' ≤ c ∧ c ≤ 'Z' then some (c.toNat - 'A'.toNat + 10)
  else none

/-- The digit-string core of Go's `strconv.ParseUint` with an explicit
base (2–16 here): every rune must be a digit of the base; prefixes like
`0x` are *not* accepted when the base is given explicitly.  `none` is any
syntax error. -/
def parseUintGo (cs : List Char) (base : Nat) : Option Nat :=
  match cs with
  | [] => none
  | _ =>
    cs.foldl
      (fun acc c =>
        acc.bind fun n => (digitVal c).bind fun d =>
          if d < base then some (n * base + d) else none)
      (some 0)

/-- Go's `strconv.ParseInt(s, base, 64)`: optional sign, digits of the
base, 64-bit range check.  `none` models any non-nil error (including the
range error, for which Go also returns a clamped value no caller
keeps). -/
def parseIntGo (s : String) (base : Nat) : Option Int :=
  match s.data with
  | [] => none
  | c :: rest =>
    let signed : Bool × List Char :=
      if c == '-' then (true, rest) else if c == '+' then (false, rest) else (false, c :: rest)
    match parseUintGo signed.2 base with
    | none => none
    | some n =>
      let v : Int := if signed.1 then -(n : Int) else (n : Int)
      if v < -(2 ^ 63) ∨ v > 2 ^ 63 - 1 then none else some v

/-- Go's `strconv.ParseFloat(s, 64)` for the shapes reachable from
`scanNumber` (an optionally dotted digit string); the value is modelled
as an exact `Rat` (see the float convention in the header). -/
def splitOnDot : List Char → List (List Char)
  | [] => [[]]
  | c :: rest =>
    let r := splitOnDot rest
    if c == '.' then [] :: r
    else
      match r with
      | h :: t => (c :: h) :: t
      | [] => [[c]]

def parseFloatGo (s : String) : Option Rat :=
  match splitOnDot s.data with
  | [a] => (parseUintGo a 10).map fun n => (n : Rat)
  | [a, b] =>
    if a.isEmpty && b.isEmpty then none
    else
      let whole := if a.isEmpty then some 0 else parseUintGo a 10
      let frac := if b.isEmpty then some 0 else parseUintGo b 10
      match whole, frac with
      | some w, some f => some ((w : Rat) + (f : Rat) / ((10 : Rat) ^ b.length))
      | _, _ => none
  | _ => none

/-- The tail of `lexer.scanNumber` once the hex/octal/binary prefixes are
ruled out: an accepted `.` selects float parsing.  Note that this point is
reached without any plain decimal digit ever having been consumed — the
source has no `l.eat(digits)` on this path. -/
def scanNumTail (eatFuel : Nat) (l : LexState) : Option GoVal × LexState :=
  let acc := lexAccept "." l
  if acc.1 then
    let l2 := lexEat eatFuel chDIGIT acc.2
    ((parseFloatGo (lexCurrent l2)).map .vfloat64, l2)
  else
    ((parseIntGo (lexCurrent acc.2) 10).map .vint64, acc.2)

/-- `lexer.scanNumber`: `0x`/`0o`/`0b` prefixes select hex/octal/binary
`ParseInt` on the whole current slice (prefix included), otherwise fall
through to `scanNumTail`.  `none` models the error case of the Go
`(interface{}, error)` result. -/
def scanNumber (eatFuel : Nat) (l : LexState) : Option GoVal × LexState :=
  let a0 := lexAccept "0" l
  if a0.1 then
    let ax := lexAccept "xX" a0.2
    if ax.1 then
      let l3 := lexEat eatFuel chHEXDIGIT ax.2
      ((parseIntGo (lexCurrent l3) 16).map .vint64, l3)
    else
      let ao := lexAccept "oO" ax.2
      if ao.1 then
        let l4 := lexEat eatFuel chOCTAL ao.2
        ((parseIntGo (lexCurrent l4) 8).map .vint64, l4)
      else
        let ab := lexAccept "bB" ao.2
        if ab.1 then
          let l5 := lexEat eatFuel chBinary ab.2
          ((parseIntGo (lexCurrent l5) 2).map .vint64, l5)
        else scanNumTail eatFuel ab.2
  else scanNumTail eatFuel a0.2

/-- The body loop of `lexQuoted`: accumulate the decoded value until the
closing quote; eof or a raw newline is the unterminated-string error
(`none` here).  A backslash consumes the escaped rune and appends only the
backslash itself, as the source does. -/
def quotedLoop : Nat → Char → LexState → String → Option (String × LexState)
  | 0, _, _, _ => none
  | fuel + 1, quote, l, value =>
    let (c, l1) := lexNext l
    match c with
    | none => none
    | some ch =>
      if ch == '\\' then
        let (r2, l2) := lexNext l1
        match r2 with
        | some r => if r != '\n' then quotedLoop fuel quote l2 (value.push ch) else none
        | none => none
      else if ch == '\n' then none
      else if ch == quote then some (value, l1)
      else quotedLoop fuel quote l1 (value.push ch)

/-- `registerDoubleOps`: the two-character operators. -/
def isDoubleOp (lit : String) : Bool :=
  lit == "==" || lit == "!=" || lit == "<=" || lit == ">=" || lit == "||" || lit == "&&"

/-- The `run` loop of the lexer: repeatedly apply `lexInput` and collect
the emitted tokens in order.  The error path (`errorf`) emits the Error
token and stops — no EndOfInput token follows it, exactly as in the
source.  (Go's `string(rune)` of eof yields the replacement character in
`lexOperator`'s two-character probe.) -/
def runLex : Nat → LexState → List Token
  | 0, _ => []
  | fuel + 1, l0 =>
    let l := { l0 with width := 0 }
    let (r, l1) := lexNext l
    match r with
    | none => [{ ttype := .EoFTok, literal := "", value := none, line := 0, start := 0 }]
    | some c =>
      if containsRune chWHITE c then
        let l2 := lexEat (l.input.length + 1) chWHITE l1
        let tok : Token :=
          { ttype := .WhitespaceTok, literal := lexCurrent l2, value := none
            line := l2.line, start := l2.start }
        (if l.includeWS then [tok] else []) ++ runLex fuel (lexEmit l2)
      else if containsRune chIDENTSTART c then
        let l2 := lexEat (l.input.length + 1) chIDENTBODY l1
        { ttype := .IdentTok, literal := lexCurrent l2, value := none
          line := l2.line, start := l2.start } :: runLex fuel (lexEmit l2)
      else if containsRune chDIGIT c then
        let lb := lexBackup l1
        match scanNumber (l.input.length + 1) lb with
        | (some v, l2) =>
          { ttype := .NumberTok, literal := lexCurrent l2, value := some v
            line := l2.line, start := l2.start } :: runLex fuel (lexEmit l2)
        | (none, l2) =>
          [{ ttype := .ErrorTok, literal := "ERROR"
             value := some (.vstring ("bad number syntax: " ++ lexCurrent l2))
             line := l2.line, start := l2.start }]
      else if c == '"' || c == '\'' then
        let lb := lexBackup l1
        let (q, l2) := lexNext lb
        match q with
        | none => []
        | some quote =>
          match quotedLoop (l.input.length + 1) quote l2 "" with
          | some (value, l3) =>
            { ttype := .StringTok, literal := lexCurrent l3, value := some (.vstring value)
              line := l3.line, start := l3.start } :: runLex fuel (lexEmit l3)
          | none =>
            [{ ttype := .ErrorTok, literal := "ERROR"
               value := some (.vstring "unterminated quoted string")
               line := l2.line, start := l2.start }]
      else
        let lb := lexBackup l1
        let (c1, l2) := lexNext lb
        let (c2, l3) := lexNext l2
        let lit2 := String.mk
          ((match c1 with | some a => [a] | none => ['�']) ++
           (match c2 with | some b => [b] | none => ['�']))
        if isDoubleOp lit2 then
          { ttype := .OperatorTok, literal := lit2, value := none
            line := lb.line, start := lb.start } :: runLex fuel (lexEmit l3)
        else
          let l4 := lexBackup l3
          { ttype := .OperatorTok
            literal := String.mk (match c1 with | some a => [a] | none => ['�'])
            value := none, line := lb.line, start := lb.start } :: runLex fuel (lexEmit l4)

/-- `newLexer(includeWS, in)` followed by draining the token channel. -/
def tokenizeGo (includeWS : Bool) (s : String) : List Token :=
  runLex (s.length + 2)
    { input := s.data, start := 0, pos := 0, width := 0, line := 0, includeWS := includeWS }

/-!
## Parser (the current one: `parseCond`, `parseIdent` and friends)

The parser sees the lexer only through `NextToken` (pushback stack first,
then the channel) and `PushBack`.  That interface is equivalent to a list
of tokens consumed from the front, with cons as pushback, which is the
model here.  `NextToken` on the closed channel returns the zero `Token`
and `finished = true`.  All parse functions take fuel; every recursive
call decreases it, and the entry point supplies an amount proportional to
the token count, ample for every input this development applies it to. -/

/-- The zero `Token` (what `NextToken` yields once the channel closes —
note its type is `ErrorTok`, the zero `TokenType`). -/
def zeroToken : Token := { ttype := .ErrorTok, literal := "", value := none, line := 0, start := 0 }

/-- `lexer.NextToken` on the list model: head of the stream, or the zero
token with `finished = true`. -/
def nextToken : List Token → (Token × Bool) × List Token
  | [] => ((zeroToken, true), [])
  | t :: ts => ((t, false), ts)

/-- ASCII case folding of one character. -/
def charToLowerGo (c : Char) : Char :=
  if 'A' ≤ c ∧ c ≤ 'Z' then Char.ofNat (c.toNat + 32) else c

/-- ASCII model of `strings.EqualFold` (all literals the parser matches
are ASCII). -/
def equalFoldGo (s t : String) : Bool :=
  s.data.map charToLowerGo == t.data.map charToLowerGo

/-- `expect`: pull a token; the closed stream or EndOfInput is accepted
silently; otherwise the kind and the (case-folded) literal must match. -/
def expectTok (ts : List Token) (tt : TokenType) (literal : String) :
    (Token × Option String) × List Token :=
  let ((t, fini), ts') := nextToken ts
  if fini || t.ttype == .EoFTok then ((t, none), ts')
  else if t.ttype != tt then
    ((t, some ("unexpected TokenType: " ++ toString (tokenTypeNum t.ttype))), ts')
  else if !(equalFoldGo t.literal literal) then
    ((t, some ("unexpected literal value: " ++ t.literal ++ ", (expected " ++ literal ++ ")")), ts')
  else ((t, none), ts')

/-- `compareOp`: the comparison operators the `cmpExpr` tier consumes
(the source omits `>` and `<`). -/
def compareOp (operand : String) : Bool :=
  operand == "==" || operand == "!=" || operand == ">=" || operand == "<="

mutual

/-- `parseExpr`. -/
def parseExprP : Nat → List Token → (Except String Expr) × List Token
  | 0, ts => (.error "out of fuel (models nontermination)", ts)
  | fuel + 1, ts => parseCond fuel ts

/-- `parseCond`: the `['?' expr ':' expr]` tier.  `expect` treats a closed
stream as a found `:`, so an input exhausted after the middle operand
parses successfully. -/
def parseCond : Nat → List Token → (Except String Expr) × List Token
  | 0, ts => (.error "out of fuel (models nontermination)", ts)
  | fuel + 1, ts =>
    match parseOr fuel ts with
    | (.error e, ts) => (.error e, ts)
    | (.ok expr, ts) =>
      let ((t, fini), ts) := nextToken ts
      if fini || t.ttype == .EoFTok then (.ok expr, ts)
      else if t.ttype == .OperatorTok && t.literal == "?" then
        match parseExprP fuel ts with
        | (.error e, ts) => (.error e, ts)
        | (.ok left, ts) =>
          match expectTok ts .OperatorTok ":" with
          | ((_, some e), ts) => (.error e, ts)
          | ((_, none), ts) =>
            match parseExprP fuel ts with
            | (.error e, ts) => (.error e, ts)
            | (.ok right, ts) => (.ok (.condE expr left right), ts)
      else (.ok expr, t :: ts)

/-- `parseOr`. -/
def parseOr : Nat → List Token → (Except String Expr) × List Token
  | 0, ts => (.error "out of fuel (models nontermination)", ts)
  | fuel + 1, ts =>
    match parseAnd fuel ts with
    | (.error e, ts) => (.error e, ts)
    | (.ok expr, ts) =>
      let ((t, fini), ts) := nextToken ts
      if fini || t.ttype == .EoFTok then (.ok expr, ts)
      else if t.ttype == .OperatorTok && t.literal == "||" then
        match parseOr fuel ts with
        | (.error e, ts) => (.error e, ts)
        | (.ok r, ts) => (.ok (.orE expr r), ts)
      else (.ok expr, t :: ts)

/-- `parseAnd`. -/
def parseAnd : Nat → List Token → (Except String Expr) × List Token
  | 0, ts => (.error "out of fuel (models nontermination)", ts)
  | fuel + 1, ts =>
    match parseCmp fuel ts with
    | (.error e, ts) => (.error e, ts)
    | (.ok expr, ts) =>
      let ((t, fini), ts) := nextToken ts
      if fini || t.ttype == .EoFTok then (.ok expr, ts)
      else if t.ttype == .OperatorTok && t.literal == "&&" then
        match parseAnd fuel ts with
        | (.error e, ts) => (.error e, ts)
        | (.ok r, ts) => (.ok (.andE expr r), ts)
      else (.ok expr, t :: ts)

/-- `parseCmp`: one optional comparator (`==`, `!=`, `>=`, `<=`) or the
keyword operators `like`/`in`. -/
def parseCmp : Nat → List Token → (Except String Expr) × List Token
  | 0, ts => (.error "out of fuel (models nontermination)", ts)
  | fuel + 1, ts =>
    match parseConcat fuel ts with
    | (.error e, ts) => (.error e, ts)
    | (.ok left, ts) =>
      let ((t, fini), ts) := nextToken ts
      if fini || t.ttype == .EoFTok then (.ok left, ts)
      else if t.ttype == .OperatorTok then
        if compareOp t.literal then
          match parseConcat fuel ts with
          | (.error e, ts) => (.error e, ts)
          | (.ok right, ts) => (.ok (.compareE t.literal left right), ts)
        else (.ok left, t :: ts)
      else if t.ttype == .IdentTok && t.literal == "like" then
        match parseConcat fuel ts with
        | (.error e, ts) => (.error e, ts)
        | (.ok right, ts) => (.ok (.likeE left right), ts)
      else if t.ttype == .IdentTok && t.literal == "in" then
        match parseConcat fuel ts with
        | (.error e, ts) => (.error e, ts)
        | (.ok right, ts) => (.ok (.inE left right), ts)
      else (.ok left, t :: ts)

/-- `parseConcat`: right-recursive `'+'` chain. -/
def parseConcat : Nat → List Token → (Except String Expr) × List Token
  | 0, ts => (.error "out of fuel (models nontermination)", ts)
  | fuel + 1, ts =>
    match parseAtom fuel ts with
    | (.error e, ts) => (.error e, ts)
    | (.ok left, ts) =>
      let ((t, fini), ts) := nextToken ts
      if fini || t.ttype == .EoFTok then (.ok left, ts)
      else if t.ttype == .OperatorTok && t.literal == "+" then
        match parseConcat fuel ts with
        | (.error e, ts) => (.error e, ts)
        | (.ok right, ts) => (.ok (.concatE left right), ts)
      else (.ok left, t :: ts)

/-- `parseAtom`: literal, identifier, parenthesised subexpression or
bracketed list; an exhausted stream yields a fresh nil scalar. -/
def parseAtom : Nat → List Token → (Except String Expr) × List Token
  | 0, ts => (.error "out of fuel (models nontermination)", ts)
  | fuel + 1, ts =>
    let ((t, fini), ts) := nextToken ts
    if fini || t.ttype == .EoFTok then (.ok (NewScalarExpr freshAllocId "" .vnil), ts)
    else if t.ttype == .NumberTok || t.ttype == .StringTok then
      (.ok (NewScalarExpr freshAllocId t.literal (tokValOf t.value)), ts)
    else if t.ttype == .IdentTok then parseIdent fuel ts t
    else if t.ttype == .OperatorTok then
      if t.literal == "(" then
        match parseSubExpr fuel ts with
        | (.error e, ts) => (.error e, ts)
        | (.ok sub, ts) =>
          match expectTok ts .OperatorTok ")" with
          | ((_, some e), ts) => (.error e, ts)
          | ((_, none), ts) => (.ok sub, ts)
      else if t.literal == "[" then parseArrayExpr fuel ts
      else (.error ("unexpected operator when expecting expression term: " ++ t.literal), ts)
    else
      (.error ("unexpected token type when expecting expression term: " ++
        toString (tokenTypeNum t.ttype) ++ " '" ++ t.literal ++ "'"), ts)

/-- `parseSubExpr`. -/
def parseSubExpr : Nat → List Token → (Except String Expr) × List Token
  | 0, ts => (.error "out of fuel (models nontermination)", ts)
  | fuel + 1, ts => parseExprP fuel ts

/-- `parseArrayExpr`: `[e, e, ...]`; an immediately exhausted stream is
accepted as an empty list, a missing `]` is the unterminated-list
error. -/
def parseArrayExpr : Nat → List Token → (Except String Expr) × List Token
  | 0, ts => (.error "out of fuel (models nontermination)", ts)
  | fuel + 1, ts =>
    let ((t, fini), ts) := nextToken ts
    if fini || t.ttype == .EoFTok then (.ok (.listE []), ts)
    else parseArrayLoop fuel t fini ts []

/-- The element loop of `parseArrayExpr`. -/
def parseArrayLoop : Nat → Token → Bool → List Token → List Expr →
    (Except String Expr) × List Token
  | 0, _, _, ts, _ => (.error "out of fuel (models nontermination)", ts)
  | fuel + 1, t, fini, ts, acc =>
    if t.ttype != .EoFTok || fini then
      if t.ttype == .OperatorTok && t.literal == "]" then (.ok (.listE acc), ts)
      else
        match parseExprP fuel (t :: ts) with
        | (.error e, ts) => (.error e, ts)
        | (.ok lele, ts) =>
          let acc := acc ++ [lele]
          let ((t, fini), ts) := nextToken ts
          if !fini && t.ttype == .OperatorTok && t.literal == "," then
            let ((t2, fini2), ts) := nextToken ts
            parseArrayLoop fuel t2 fini2 ts acc
          else parseArrayLoop fuel t fini ts acc
    else (.error "list is un-terminated", ts)

/-- `parseScopedIdent`: extend the scope chain, or parse a scoped call;
after a call's closing paren a further `.` continues scoping (from the
symbol, as the source does). -/
def parseScopedIdent : Nat → List Token → Token → SymbolData →
    (Except String Expr) × List Token
  | 0, ts, _, _ => (.error "out of fuel (models nontermination)", ts)
  | fuel + 1, ts, t0, scope =>
    let ident := t0.literal
    let sym := SymbolData.mk t0.literal (some scope)
    let ((t, fini), ts) := nextToken ts
    if fini || t.ttype == .EoFTok then (.ok (.symbolE sym), ts)
    else if t.ttype == .OperatorTok && t.literal == "." then
      match expectTok ts .IdentTok "" with
      | ((_, some e), ts) => (.error e, ts)
      | ((t2, none), ts) => parseScopedIdent fuel ts t2 sym
    else if !(t.ttype == .OperatorTok) || !(t.literal == "(") then (.ok (.symbolE sym), t :: ts)
    else
      -- NewScopedFuncCallExpr(ident, scope): scope is a *SymbolExpr here,
      -- so the invalid-scope error of that constructor is unreachable.
      let ((t, fini), ts) := nextToken ts
      if fini || t.ttype == .EoFTok then (.ok (.scopedFuncCallE ident (.symbolE scope) []), ts)
      else parseScopedArgsLoop fuel t fini ts ident scope sym [] true

/-- The argument loop of `parseScopedIdent`, then the post-`)` lookahead
for a continuing `.` (a non-dot token after `)` is dropped, as in the
source). -/
def parseScopedArgsLoop : Nat → Token → Bool → List Token → String → SymbolData →
    SymbolData → List Expr → Bool → (Except String Expr) × List Token
  | 0, _, _, ts, _, _, _, _, _ => (.error "out of fuel (models nontermination)", ts)
  | fuel + 1, t, fini, ts, ident, scope, sym, args, expectArg =>
    if !(t.ttype == .OperatorTok && t.literal == ")") then
      let ts := t :: ts
      if expectArg then
        match parseExprP fuel ts with
        | (.error e, ts) => (.error e, ts)
        | (.ok a, ts) =>
          let args := args ++ [a]
          let ((t, fini), ts) := nextToken ts
          if fini || t.ttype == .EoFTok then (.ok (.symbolE sym), ts)
          else parseScopedArgsLoop fuel t fini ts ident scope sym args (!expectArg)
      else
        let er := expectTok ts .OperatorTok ","
        let ((t, fini), ts) := nextToken er.2
        if fini || t.ttype == .EoFTok then (.ok (.symbolE sym), ts)
        else parseScopedArgsLoop fuel t fini ts ident scope sym args (!expectArg)
    else
      let ((t, fini), ts) := nextToken ts
      if fini || t.ttype == .EoFTok then (.ok (.symbolE sym), ts)
      else if t.ttype == .OperatorTok && t.literal == "." then
        match expectTok ts .IdentTok "" with
        | ((_, some e), ts) => (.error e, ts)
        | ((t2, none), ts) => parseScopedIdent fuel ts t2 sym
      else (.ok (.scopedFuncCallE ident (.symbolE scope) args), ts)

/-- `parseIdent`: symbol, dotted chain (an `expect` with an empty wanted
literal, then `parseScopedIdent`), or plain call. -/
def parseIdent : Nat → List Token → Token → (Except String Expr) × List Token
  | 0, ts, _ => (.error "out of fuel (models nontermination)", ts)
  | fuel + 1, ts, t0 =>
    let sym := SymbolData.mk t0.literal none
    let ((t, fini), ts) := nextToken ts
    if fini || t.ttype == .EoFTok then (.ok (.symbolE sym), ts)
    else if t.ttype == .OperatorTok && t.literal == "." then
      match expectTok ts .IdentTok "" with
      | ((_, some e), ts) => (.error e, ts)
      | ((t2, none), ts) => parseScopedIdent fuel ts t2 sym
    else if !(t.ttype == .OperatorTok) || !(t.literal == "(") then (.ok (.symbolE sym), t :: ts)
    else
      let ((t, fini), ts) := nextToken ts
      if fini || t.ttype == .EoFTok then (.ok (.funcCallE (some (.symbolE sym)) []), ts)
      else parseIdentArgsLoop fuel t fini ts sym [] true

/-- The argument loop of `parseIdent` (an exhausted stream mid-arguments
returns the bare symbol, as the source does). -/
def parseIdentArgsLoop : Nat → Token → Bool → List Token → SymbolData → List Expr →
    Bool → (Except String Expr) × List Token
  | 0, _, _, ts, _, _, _ => (.error "out of fuel (models nontermination)", ts)
  | fuel + 1, t, fini, ts, sym, args, expectArg =>
    if !(t.ttype == .OperatorTok && t.literal == ")") then
      let ts := t :: ts
      if expectArg then
        match parseExprP fuel ts with
        | (.error e, ts) => (.error e, ts)
        | (.ok a, ts) =>
          let args := args ++ [a]
          let ((t, fini), ts) := nextToken ts
          if fini || t.ttype == .EoFTok then (.ok (.symbolE sym), ts)
          else parseIdentArgsLoop fuel t fini ts sym args (!expectArg)
      else
        let er := expectTok ts .OperatorTok ","
        let ((t, fini), ts) := nextToken er.2
        if fini || t.ttype == .EoFTok then (.ok (.symbolE sym), ts)
        else parseIdentArgsLoop fuel t fini ts sym args (!expectArg)
    else (.ok (.funcCallE (some (.symbolE sym)) args), ts)

end

/-- `Parser.Parse` / package-level `Parse`: lex with whitespace suppressed
and parse the token stream. -/
def ParseGo (input : String) : Except String Expr :=
  let toks := tokenizeGo false input
  (parseExprP (16 * (toks.length + 2)) toks).1


/-!
## Shared fixtures for the claim theorems
-/

/-- A callback table with no observable behaviour (never reached in the
evaluations that use it). -/
def defaultCb : CallbackTable := fun _ _ => .ok none

/-- A callback that reports how many arguments it was invoked with. -/
def argCountCb : CallbackTable :=
  fun _ args => .ok (some (NewScalarExpr 600 "" (.vint64 args.length)))

/-- A fresh environment extended with a native function `f`. -/
def envWithF : Environment := (NewEnvironment.Set "f" (.nativeFunctionE "f")).1

/-- An identifier token as the lexer emits it (positions irrelevant to the
parser). -/
def identTokOf (s : String) : Token :=
  { ttype := .IdentTok, literal := s, value := none, line := 0, start := 0 }

/-- An operator token as the lexer emits it. -/
def opTokOf (s : String) : Token :=
  { ttype := .OperatorTok, literal := s, value := none, line := 0, start := 0 }

/-- The EndOfInput token. -/
def eofTok : Token := { ttype := .EoFTok, literal := "", value := none, line := 0, start := 0 }

/-- Payload types that `compare`'s type switch handles (everything except
nil and string). -/
def supportedPayload : GoVal → Bool
  | .vbool _ => true
  | .vint _ => true
  | .vuint _ => true
  | .vint64 _ => true
  | .vuint64 _ => true
  | .vfloat32 _ => true
  | .vfloat64 _ => true
  | _ => false

/-- The dynamic type of a payload, as a discriminant (two payloads have
the same Go dynamic type iff their tags agree). -/
def payloadTypeTag : GoVal → Nat
  | .vnil => 0
  | .vbool _ => 1
  | .vint _ => 2
  | .vuint _ => 3
  | .vint64 _ => 4
  | .vuint64 _ => 5
  | .vfloat32 _ => 6
  | .vfloat64 _ => 7
  | .vstring _ => 8

set_option maxRecDepth 8192

/-!
## The claims
-/

/-- Claim C1 (refuted by the code — the code contradicts its own test
suite, which lexes `1 == 2?true:false`): the lexer does *not* emit a
Number token for plain decimal literals.  `scanNumber` never consumes
plain decimal digits (there is no `l.eat(digits)` before the final
`ParseInt`), so for `"1"` and `"123"` alike `Current()` is still empty,
`ParseInt` fails, and `lexNumber` emits the fatal Error token for a
perfectly well-formed literal. -/
theorem lexer_rejects_plain_decimal_literals :
    (tokenizeGo false "1").map Token.ttype = [.ErrorTok] ∧
    (tokenizeGo false "123").map Token.ttype = [.ErrorTok] ∧
    (tokenizeGo false "0").map Token.ttype = [.NumberTok, .EoFTok] := by
  refine ⟨by rfl, by rfl, by rfl⟩

/-- Claim C2 (refuted by the code — the code contradicts `Lock`'s own
documentation): `Lock` assigns the flag to a *copy* of the map entry and
never writes it back, so on a fresh environment (whose bootstrap has
already called `Lock("true", true)`) a `Set` on `"true"` succeeds with a
nil error and replaces the stored canonical True — which the claim says
must fail and leave the value unchanged.  The final conjunct checks the
new value is really a different expression than the builtin. -/
theorem set_on_locked_builtin_succeeds_and_overwrites :
    (NewEnvironment.Set "true" (NewScalarExpr 500 "x" (.vint64 7))).2 = none ∧
    Environment.GetD (NewEnvironment.Set "true" (NewScalarExpr 500 "x" (.vint64 7))).1 "true"
      = NewScalarExpr 500 "x" (.vint64 7) ∧
    beqExpr (NewScalarExpr 500 "x" (.vint64 7)) (Environment.GetD NewEnvironment "true")
      = false := by
  refine ⟨by rfl, by rfl, by rfl⟩

/-- Claim C3 (refuted by the code — the code contradicts the grammar in
the parser's own doc comment, `symbol ::= ident[funcall]['.' symbol]`):
parsing the dotted chain `a.b` returns a parse error, not a nested
Symbol.  `parseIdent` consumes the dot and calls
`expect(lex, IdentTok, "")`, and `expect` demands
`strings.EqualFold(t.Literal, "")`, which no identifier satisfies, so
every dotted chain dies here and `parseScopedIdent` is unreachable. -/
theorem parse_dotted_chain_is_error :
    ParseGo "a.b" = .error "unexpected literal value: b, (expected )" := by
  have htok : tokenizeGo false "a.b" =
      [{ ttype := .IdentTok, literal := "a", value := none, line := 0, start := 0 },
       { ttype := .OperatorTok, literal := ".", value := none, line := 0, start := 1 },
       { ttype := .IdentTok, literal := "b", value := none, line := 0, start := 2 },
       { ttype := .EoFTok, literal := "", value := none, line := 0, start := 0 }] := by rfl
  simp only [ParseGo, htok]
  simp [parseExprP, parseCond, parseOr, parseAnd, parseCmp, parseConcat, parseAtom,
    parseIdent, parseScopedIdent, nextToken, expectTok, compareOp,
    equalFoldGo, charToLowerGo, zeroToken, tokenTypeNum]

/-- Claim C4, counterexample: `a ? b` — a consumed `?`, a parsed first
branch, and *no* `:` because the input is exhausted — parses without
error: `expect` returns a nil error at end of input, and the right branch
becomes the fresh nil scalar that `parseAtom` produces on an exhausted
stream.  The claim says every such input is a parse error. -/
theorem ternary_without_colon_at_eof_parses :
    ParseGo "a ? b" = .ok (.condE (.symbolE (.mk "a" none)) (.symbolE (.mk "b" none))
      (NewScalarExpr freshAllocId "" .vnil)) := by
  have htok : tokenizeGo false "a ? b" =
      [{ ttype := .IdentTok, literal := "a", value := none, line := 0, start := 0 },
       { ttype := .OperatorTok, literal := "?", value := none, line := 0, start := 2 },
       { ttype := .IdentTok, literal := "b", value := none, line := 0, start := 4 },
       { ttype := .EoFTok, literal := "", value := none, line := 0, start := 0 }] := by rfl
  simp only [ParseGo, htok]
  simp [parseExprP, parseCond, parseOr, parseAnd, parseCmp, parseConcat, parseAtom,
    parseIdent, parseScopedIdent, nextToken, expectTok, compareOp,
    equalFoldGo, charToLowerGo, zeroToken, tokenTypeNum, NewScalarExpr]

/-- Claim C4, amended, in full generality: whenever the `?` is consumed
(after `parseOr` succeeds it is the next token), the first branch parses
without error, and the token the subsequent `expect` pulls is neither the
closed stream's end-of-input nor a `:` operator token, `Parse`
(`parseExpr`, with the fuel of the two frames made explicit) returns a
parse error — through either of `expect`'s two failure paths: a
non-operator follower fails the token-kind test, an operator follower
whose literal does not case-fold to `:` fails the literal test.
Together with the previous theorem this settles the amended claim: a
missing `:` is an error exactly when some further token follows. -/
theorem ternary_missing_colon_is_parse_error (fuel : Nat) (ts ts1 ts2 : List Token)
    (e left : Expr) (tq t : Token)
    (h1 : parseOr fuel ts = (.ok e, tq :: ts1))
    (hq : tq.ttype = .OperatorTok) (hql : tq.literal = "?")
    (h2 : parseExprP fuel ts1 = (.ok left, t :: ts2))
    (ht : t.ttype ≠ .EoFTok)
    (htc : t.ttype ≠ .OperatorTok ∨ equalFoldGo t.literal ":" = false) :
    ∃ msg, parseExprP (fuel + 2) ts = (.error msg, ts2) := by
  by_cases hty : t.ttype = .OperatorTok
  · have hlit : equalFoldGo t.literal ":" = false := by
      rcases htc with h | h
      · exact absurd hty h
      · exact h
    refine ⟨"unexpected literal value: " ++ t.literal ++ ", (expected " ++ ":" ++ ")", ?_⟩
    simp [parseExprP, parseCond, h1, nextToken, hq, hql, h2, expectTok, ht, hty, hlit]
  · refine ⟨"unexpected TokenType: " ++ toString (tokenTypeNum t.ttype), ?_⟩
    simp [parseExprP, parseCond, h1, nextToken, hq, hql, h2, expectTok, ht, hty]

/-- Witness for `ternary_missing_colon_is_parse_error` at the token
stream of `a ? b )`: the follower `)` is an operator whose literal is not
`:`, and the parse errors, leaving the end-of-input token unconsumed. -/
theorem ternary_missing_colon_is_parse_error_witness :
    ∃ msg, parseExprP 12 [identTokOf "a", opTokOf "?", identTokOf "b", opTokOf ")", eofTok]
      = (.error msg, [eofTok]) :=
  ternary_missing_colon_is_parse_error 10
    [identTokOf "a", opTokOf "?", identTokOf "b", opTokOf ")", eofTok]
    [identTokOf "b", opTokOf ")", eofTok] [eofTok]
    (.symbolE (.mk "a" none)) (.symbolE (.mk "b" none)) (opTokOf "?") (opTokOf ")")
    (by rfl) rfl rfl (by rfl) (by decide) (Or.inr (by rfl))

/-- Claim C5 (confirmed): once the condition evaluates without error, a
falsy result evaluates the `left` branch alone and returns its result,
and a truthy result evaluates the `right` branch alone — the conclusion
mentions only the chosen branch, for arbitrary `l` and `r`, so the other
branch can never contribute (exactly one branch is evaluated per
invocation). -/
theorem condExpr_evaluates_exactly_one_branch (cb : CallbackTable) (fuel : Nat)
    (env : Environment) (c l r : Expr) (cv : Option Expr)
    (hc : evalE cb fuel env c = .ok cv) :
    (isFalsy env cv = true →
      evalE cb (fuel + 1) env (.condE c l r) = evalE cb fuel env l) ∧
    (isFalsy env cv = false →
      evalE cb (fuel + 1) env (.condE c l r) = evalE cb fuel env r) := by
  constructor <;> intro h <;> simp [evalE, hc, h]

/-- Witness for `condExpr_evaluates_exactly_one_branch` at a concrete
input: a nil-payload scalar condition is falsy and selects the left
branch. -/
theorem condExpr_evaluates_exactly_one_branch_witness :
    evalE defaultCb 2 NewEnvironment
        (.condE (NewScalarExpr 910 "" .vnil) (NewScalarExpr 911 "L" (.vstring "L"))
          (NewScalarExpr 912 "R" (.vstring "R")))
      = evalE defaultCb 1 NewEnvironment (NewScalarExpr 911 "L" (.vstring "L")) :=
  (condExpr_evaluates_exactly_one_branch defaultCb 1 NewEnvironment
    (NewScalarExpr 910 "" .vnil) (NewScalarExpr 911 "L" (.vstring "L"))
    (NewScalarExpr 912 "R" (.vstring "R")) (some (NewScalarExpr 910 "" .vnil))
    (by rfl)).1 (by rfl)

/-- Claim C6 (refuted by the code — the spec's truthiness rule states the
intent and the code's comparison is a type confusion that can never be
true): a Scalar whose payload is the boolean `false` but which is not the
environment's canonical False instance is treated as *truthy* everywhere:
the falsiness test fails (its last disjunct compares the payload
interface with the `env.False()` expression interface), so Conditional
picks the truthy (`right`) branch, Or short-circuits to True without
looking at its right operand, and And proceeds past it and yields True. -/
theorem noncanonical_false_payload_is_truthy :
    isFalsy NewEnvironment (some (NewScalarExpr 920 "false" (.vbool false))) = false ∧
    evalE defaultCb 10 NewEnvironment
        (.condE (NewScalarExpr 920 "false" (.vbool false))
          (NewScalarExpr 921 "L" (.vstring "L")) (NewScalarExpr 922 "R" (.vstring "R")))
      = .ok (some (NewScalarExpr 922 "R" (.vstring "R"))) ∧
    evalE defaultCb 10 NewEnvironment
        (.orE (NewScalarExpr 920 "false" (.vbool false))
          (Environment.FalseD NewEnvironment))
      = .ok (some (Environment.TrueD NewEnvironment)) ∧
    evalE defaultCb 10 NewEnvironment
        (.andE (NewScalarExpr 920 "false" (.vbool false))
          (Environment.TrueD NewEnvironment))
      = .ok (some (Environment.TrueD NewEnvironment)) := by
  refine ⟨by rfl, by rfl, by rfl, by rfl⟩

/-- Claim C7 (confirmed): for the six comparison operators, a nil payload
on either side makes `compare` return the environment's False with a nil
error (even for `!=`), and the returned expression is always the
environment's canonical True or False — never a raw boolean or anything
else. -/
theorem compare_nil_is_false_and_results_are_canonical (env : Environment)
    (op : String) (l r : ScalarData)
    (hop : op = "==" ∨ op = "!=" ∨ op = ">=" ∨ op = ">" ∨ op = "<=" ∨ op = "<") :
    ((l.value = .vnil ∨ r.value = .vnil) →
      GoExpr.compare env op l r = (env.FalseD, none)) ∧
    ((GoExpr.compare env op l r).1 = env.TrueD ∨
      (GoExpr.compare env op l r).1 = env.FalseD) := by
  obtain ⟨lid, llit, lv⟩ := l
  obtain ⟨rid, rlit, rv⟩ := r
  constructor
  · rintro (h | h) <;> simp_all [GoExpr.compare]
  · rcases hop with h|h|h|h|h|h <;> subst h <;>
      cases lv <;> cases rv <;> simp only [GoExpr.compare] <;> (repeat' split) <;> simp

/-- Witness for `compare_nil_is_false_and_results_are_canonical`: a nil
left payload under `!=` yields the canonical False with no error. -/
theorem compare_nil_is_false_witness :
    GoExpr.compare NewEnvironment "!=" ⟨700, "", .vnil⟩ ⟨701, "", .vint64 3⟩
      = (Environment.FalseD NewEnvironment, none) :=
  (compare_nil_is_false_and_results_are_canonical NewEnvironment "!="
    ⟨700, "", .vnil⟩ ⟨701, "", .vint64 3⟩ (Or.inr (Or.inl rfl))).1 (Or.inl rfl)

/-- Claim C8 (refuted by the code — the mirrored nil-left branch and the
spec show the intent; the nil-right branch returns `r.String()` where
`l.String()` was meant): concatenating a non-nil left operand with a
nil-payload right operand yields a fresh literal-less Scalar whose value
is the string `"NULL"` (the right operand's `String()` form), not the
string form of the left operand alone, which the claim requires. -/
theorem concat_with_nil_right_returns_NULL_string :
    evalE defaultCb 10 NewEnvironment
        (.concatE (NewScalarExpr 800 "\"a\"" (.vstring "a")) (NewScalarExpr 801 "null" .vnil))
      = .ok (some (NewScalarExpr freshAllocId "" (.vstring "NULL"))) := by
  rfl

/-- Claim C9 (refuted by the code — a classic make-with-length + append
slip, contradicting the spec's "invoke it with the evaluated argument
list"): the argument slice is created with `make([]Expression, n)` and
the `n` evaluated arguments are *appended*, so the native callback is
invoked with `2n` elements — `n` nil Expressions followed by the
evaluated arguments.  Here a call with one argument reaches a callback
that reports the length of its argument list: it sees 2 arguments, not
1. -/
theorem native_callback_receives_doubled_argument_list :
    evalE argCountCb 10 envWithF
        (.funcCallE (some (.symbolE (.mk "f" none))) [NewScalarExpr 900 "5" (.vint64 5)])
      = .ok (some (NewScalarExpr 600 "" (.vint64 2))) := by
  rfl

/-- Claim C10 (confirmed): when both payloads are non-nil values of
individually supported types but of different dynamic types, the type
switch selects the left type's arm, the right operand's type assertion
fails, and control falls to the final `return env.False(), nil` — for
*every* operator string, no type-mismatch error is ever produced. -/
theorem compare_cross_type_is_silent_false (env : Environment) (op : String)
    (l r : ScalarData)
    (hl : supportedPayload l.value = true) (hr : supportedPayload r.value = true)
    (hne : payloadTypeTag l.value ≠ payloadTypeTag r.value) :
    GoExpr.compare env op l r = (env.FalseD, none) := by
  obtain ⟨lid, llit, lv⟩ := l
  obtain ⟨rid, rlit, rv⟩ := r
  cases lv <;> cases rv <;> simp_all [GoExpr.compare, supportedPayload, payloadTypeTag]

/-- Witness for `compare_cross_type_is_silent_false`: `int64 1 == float64
1` is the canonical False with a nil error. -/
theorem compare_cross_type_is_silent_false_witness :
    supportedPayload (GoVal.vint64 1) = true ∧
    payloadTypeTag (GoVal.vint64 1) ≠ payloadTypeTag (GoVal.vfloat64 1) ∧
    GoExpr.compare NewEnvironment "==" ⟨710, "", .vint64 1⟩ ⟨711, "", .vfloat64 1⟩
      = (Environment.FalseD NewEnvironment, none) :=
  ⟨rfl, by decide,
    compare_cross_type_is_silent_false NewEnvironment "=="
      ⟨710, "", .vint64 1⟩ ⟨711, "", .vfloat64 1⟩ rfl rfl (by decide)⟩


end GoExpr
